import Mathlib

set_option maxHeartbeats 1000000
set_option synthInstance.maxHeartbeats 400000

/-!
Verification of the MicroAir EasyTouch multi-zone BLE thermostat integration
(`micro_air_easytouch/parser.py` and `micro_air_easytouch/const.py`).

The development shallowly embeds the pure core of the parser:

* the status codec `decrypt` (JSON status payload -> device state),
* the adaptive per-device per-operation delay table,
* the capability model (`is_mode_available`, `get_fan_capabilities`,
  `get_available_fan_speeds`),
* the update fan-out dispatch (`_notify_update`),
* the reboot command path (`reboot_device`),
* a labelled transition system for the command queue worker.

Parsed JSON is modelled structurally: the result of parsing a status
payload is an `Option JsonValue` (`none` stands for bytes that fail JSON
parsing; `JsonValue` covers the null, boolean, number, string, array and
object results the parser can produce, with `Payload` the projection of an
object to the fields `decrypt` reads), dicts are association lists with
Python insertion semantics, Python `int` is `Int`, and Python float delay
arithmetic (all values involved are exactly representable dyadic
rationals) is `Rat`.
-/

namespace EasyTouch

/-- Bitwise AND with two's-complement semantics, matching Python `&` on
unbounded ints. The case split mirrors the sign cases. -/
def intLand : Int → Int → Int
  | .ofNat m, .ofNat n => .ofNat (m &&& n)
  | .ofNat m, .negSucc n => .ofNat (Nat.ldiff m n)
  | .negSucc m, .ofNat n => .ofNat (Nat.ldiff n m)
  | .negSucc m, .negSucc n => .negSucc (m ||| n)

/-- Lookup in a Python dict modelled as an association list (first match;
keys of a parsed JSON object are unique). -/
def dictLookup {α β : Type} [DecidableEq α] : List (α × β) → α → Option β
  | [], _ => none
  | (k, v) :: rest, key => if k = key then some v else dictLookup rest key

/-- Insertion into a Python dict modelled as an association list: an existing
key keeps its position and gets the new value, a new key is appended. -/
def dictInsert {α β : Type} [DecidableEq α] (key : α) (val : β) :
    List (α × β) → List (α × β)
  | [] => [(key, val)]
  | (k, v) :: rest =>
      if k = key then (k, val) :: rest else (k, v) :: dictInsert key val rest

/-- Per-zone status dict built by `decrypt` for one `Z_sts` entry. Every
field is optional because the Python dict only holds the keys that the
decoding path actually assigned. -/
structure ZoneStatus where
  autoHeat_sp : Option Int := none
  autoCool_sp : Option Int := none
  cool_sp : Option Int := none
  heat_sp : Option Int := none
  dry_sp : Option Int := none
  rh_sp : Option Int := none
  fan_mode_num : Option Int := none
  cool_fan_mode_num : Option Int := none
  heat_fan_mode_num : Option Int := none
  auto_fan_mode_num : Option Int := none
  dry_fan_mode_num : Option Int := none
  mode_num : Option Int := none
  furnace_fan_mode_num : Option Int := none
  facePlateTemperature : Option Int := none
  outdoorTemperature : Option Int := none
  active_state_num : Option Int := none
  off : Option Bool := none
  «on» : Option Bool := none
  mode : Option String := none
  current_mode : Option String := none
  heat_source : Option String := none
  fan_mode : Option String := none
deriving DecidableEq

/-- Per-zone configuration dict (`MAV` bitmask, `FA` fan array, `SPL`
setpoint limits, `MA` mode array) stored by `_fetch_zone_configurations`. -/
structure ZoneConfig where
  MAV : Option Int := none
  FA : Option (List Int) := none
  SPL : Option (List Int) := none
  MA : Option (List Int) := none
deriving DecidableEq

/-- The projection of a parsed JSON status response that is a JSON object
to the fields `decrypt` reads (the other parse results — scalars, strings,
arrays — are the remaining constructors of `JsonValue` below). `Z_sts` is
`none` when the key is absent; otherwise it lists the zone entries (integer
zone key, status array) in object order. `PRM` defaults to the empty list,
mirroring `status.get("PRM", [])`. -/
structure Payload where
  Z_sts : Option (List (Int × List Int)) := none
  PRM : List Int := []
  SN : Option String := none
  CI : Option Int := none
  hA : Option Int := none
deriving DecidableEq

/-- The device state dict (`self._device_state` and the value returned by
`decrypt`). Optional fields model dict keys that may be absent; `zones`,
`available_zones` and `zone_configs` use the empty collection for an absent
key, matching how the source reads them back with `.get(..., default)`.
`rootZone` stands for the copy of the zone-0 status dict that the source
merges into the top level for backward compatibility. -/
structure DeviceState where
  SN : Option String := none
  ALL : Option Payload := none
  PRM : Option (List Int) := none
  CI : Option Int := none
  hA : Option Int := none
  zones : List (Int × ZoneStatus) := []
  available_zones : List Int := []
  rootZone : Option ZoneStatus := none
  zone_configs : List (Int × ZoneConfig) := []
deriving DecidableEq

/-- The `modes` table local to `decrypt`, mapping the reported mode number
to a name. -/
def modesMap (n : Int) : Option String :=
  dictLookup
    [((0 : Int), "off"), (1, "fan"), (2, "cool"), (3, "heat_on"), (4, "heat"),
      (5, "heat_on"), (6, "dry"), (7, "heat_on"), (8, "auto"), (9, "auto"),
      (10, "auto"), (11, "auto")] n

/-- The `HEAT_TYPE_REVERSE` table of `const.py`: mode number to heat-source
preset name (inverse of `HEAT_TYPE_PRESETS`). -/
def HEAT_TYPE_REVERSE (n : Int) : Option String :=
  dictLookup
    [((5 : Int), "Heat Pump"), (4, "Furnace"), (3, "Gas Furnace"),
      (7, "Heat Strip"), (12, "Electric Heat")] n

/-- Fan-mode label used by `decrypt` in fan-only mode. The source looks up
the integer `fan_mode_num` in `FAN_MODES_FAN_ONLY`, whose keys are the
strings `off`, `low`, `high`; an integer key never matches a string key, so
the `.get` default value `off` is always returned. -/
def fanModeLabel (_fan_mode_num : Int) : String := "off"

/-- Decoding of one 16-element zone status array (`decrypt`, per-zone body).
`param` is the `PRM` array; power bits are only written when `len(param) > 1`. -/
def decodeZone (param info : List Int) : ZoneStatus :=
  let mode_num := info.getD 10 0
  let active_state_num := info.getD 15 0
  let power :=
    if param.length > 1 then some (decide (0 < intLand (param.getD 1 0) 8))
    else none
  { autoHeat_sp := some (info.getD 0 0)
    autoCool_sp := some (info.getD 1 0)
    cool_sp := some (info.getD 2 0)
    heat_sp := some (info.getD 3 0)
    dry_sp := some (info.getD 4 0)
    rh_sp := some (info.getD 5 0)
    fan_mode_num := some (info.getD 6 0)
    cool_fan_mode_num := some (info.getD 7 0)
    heat_fan_mode_num := some (info.getD 8 0)
    auto_fan_mode_num := some (info.getD 9 0)
    dry_fan_mode_num := some (info.getD 9 0)
    mode_num := some mode_num
    furnace_fan_mode_num := some (info.getD 11 0)
    facePlateTemperature := some (info.getD 12 0)
    outdoorTemperature := some (info.getD 13 0)
    active_state_num := some active_state_num
    off := power.map (fun b => !b)
    «on» := power
    mode := modesMap mode_num
    current_mode := some
      (if intLand active_state_num 2 ≠ 0 then "cool"
       else if intLand active_state_num 4 ≠ 0 then "heat"
       else if intLand active_state_num 1 ≠ 0 then "dry"
       else if intLand active_state_num 32 ≠ 0 then "off"
       else "off")
    heat_source := HEAT_TYPE_REVERSE mode_num
    fan_mode :=
      if (modesMap mode_num).getD "off" = "fan" then
        some (fanModeLabel (info.getD 6 0))
      else none }

/-- Python `sorted` on the detected zone list (ascending). -/
def sortAsc (l : List Int) : List Int :=
  List.mergeSort l (fun a b => decide (a ≤ b))

/-- The default structure `decrypt` returns when the payload is not valid
JSON or has no `Z_sts` key. -/
def failDefault : DeviceState :=
  { available_zones := [0], zones := [((0 : Int), ({} : ZoneStatus))] }

/-- The `hr_status` dict that `decrypt` builds from a payload whose `Z_sts`
key is present with entry list `entries`: zones with arrays shorter than 16
elements are skipped, the remaining zones are decoded, zone keys are sorted
ascending, a synthetic zone 0 is substituted when no zone validated, and an
existing zone 0 is copied to the top level. -/
def hrStatus (status : Payload) (entries : List (Int × List Int)) : DeviceState :=
  let param := status.PRM
  let valid := entries.filter (fun e => !decide (e.snd.length < 16))
  let available_zones := valid.map Prod.fst
  let zone_data :=
    valid.foldl (fun d e => dictInsert e.fst (decodeZone param e.snd) d) []
  let base : DeviceState :=
    { SN := some (status.SN.getD "Unknown")
      ALL := some status
      PRM := some param
      CI := status.CI
      hA := status.hA
      zones := zone_data
      available_zones := sortAsc available_zones
      rootZone := dictLookup zone_data (0 : Int)
      zone_configs := [] }
  if available_zones = [] then
    { base with available_zones := [0], zones := [((0 : Int), ({} : ZoneStatus))] }
  else base

/-- The `decrypt` method on the parse-failure and JSON-object paths (see
`decryptJson` for the full parsed-JSON input domain): first component is
the returned dict, second the updated `self._device_state` (`prev` on the
early-return error paths). The input is `none` when the raw bytes fail
JSON parsing. On success the stored state and the returned dict are the
same object, carrying over the previous `zone_configs` when that dict is
non-empty. -/
def decrypt (prev : DeviceState) (inp : Option Payload) :
    DeviceState × DeviceState :=
  match inp with
  | none => (failDefault, prev)
  | some status =>
    match status.Z_sts with
    | none => (failDefault, prev)
    | some entries =>
      let hr := hrStatus status entries
      let preserved := prev.zone_configs
      let final :=
        if preserved = [] then hr else { hr with zone_configs := preserved }
      (final, final)

/-- Concrete status payload of the end-to-end heat scenario. -/
def c8payload : Payload :=
  { Z_sts := some [((0 : Int), [70, 75, 72, 70, 0, 0, 1, 2, 5, 128, 5, 0, 68, 0, 0, 4])]
    PRM := [0, 8] }

/-- Status payload whose only zone entry has a short (1-element) array. -/
def c7shortPayload : Payload := { Z_sts := some [((0 : Int), [70])] }

/-! ### Adaptive delay table (`_get_operation_delay`, `_increase_operation_delay`,
`_adjust_operation_delay`). Delays are Python floats whose reachable values
here are dyadic rationals, modelled exactly in `Rat`. -/

/-- One entry of the per-device per-operation delay table. -/
structure OpDelay where
  delay : Rat
  failures : Nat
deriving DecidableEq

/-- The persistent table `hass.data[DOMAIN]["device_delays"]`, with the two
nested dict levels flattened to an (address, operation) key. -/
abbrev DelayTable := List ((String × String) × OpDelay)

/-- The cap `self._max_delay = 6.0`. -/
def MAX_DELAY : Rat := 6

/-- The read side `_get_operation_delay`: missing entries read as delay 0. -/
def get_operation_delay (t : DelayTable) (address operation : String) : Rat :=
  ((dictLookup t (address, operation)).getD { delay := 0, failures := 0 }).delay

/-- The failure side `_increase_operation_delay`: the entry is created on
first failure, the failure count is incremented, and the delay becomes
`min(0.5 * 2 ** min(failures, 3), max_delay)`. -/
def increase_operation_delay (t : DelayTable) (address operation : String) :
    DelayTable :=
  let cur := (dictLookup t (address, operation)).getD { delay := 0, failures := 0 }
  let failures := cur.failures + 1
  let delay := min ((1 : Rat) / 2 * 2 ^ min failures 3) MAX_DELAY
  dictInsert (address, operation) { delay := delay, failures := failures } t

/-- The success side `_adjust_operation_delay`: only an existing entry is
touched; a positive failure count is decremented and the delay decays by
25 percent; afterwards, a zero failure count with delay below 0.1 resets
the delay to exactly 0. -/
def adjust_operation_delay (t : DelayTable) (address operation : String) :
    DelayTable :=
  match dictLookup t (address, operation) with
  | none => t
  | some cur =>
    let cur1 : OpDelay :=
      if cur.failures > 0 then
        { delay := max 0 (cur.delay * (3 / 4 : Rat)), failures := cur.failures - 1 }
      else cur
    let cur2 : OpDelay :=
      if cur1.failures = 0 ∧ cur1.delay < (1 / 10 : Rat) then
        { cur1 with delay := 0 }
      else cur1
    dictInsert (address, operation) cur2 t

/-- Table state after `n` consecutive failures on one (address, operation)
key, starting from
an empty table. -/
def repeatIncrease (address operation : String) : Nat → DelayTable
  | 0 => []
  | n + 1 => increase_operation_delay (repeatIncrease address operation n)
      address operation

/-! ### Capability model (`get_zone_config`, `is_mode_available`,
`get_available_modes`, `get_fan_capabilities`, `get_available_fan_speeds`). -/

/-- The accessor `get_zone_config`, reading
`self._device_state.get("zone_configs", {}).get(zone, {})`. -/
def get_zone_config (state : DeviceState) (zone : Int) : ZoneConfig :=
  (dictLookup state.zone_configs zone).getD {}

/-- The predicate `is_mode_available`: permissive `true` when `MAV` is 0 (config not yet
fetched), otherwise the test `(mav & (1 << mode)) > 0`. -/
def is_mode_available (state : DeviceState) (zone : Int) (mode : Nat) : Bool :=
  let mav := (get_zone_config state zone).MAV.getD 0
  if mav = 0 then true
  else decide (0 < intLand mav (Int.ofNat (1 <<< mode)))

/-- The query `get_available_modes`: all modes 0..15 whose `MAV` bit is set. -/
def get_available_modes (state : DeviceState) (zone : Int) : List Nat :=
  let mav := (get_zone_config state zone).MAV.getD 0
  (List.range 16).filter (fun mode => decide (0 < intLand mav (Int.ofNat (1 <<< mode))))

/-- The unpacked `FA[mode]` byte. `max_speed` is the lower 4 bits
`fa_value & 15`, which is always in 0..15, so it is carried as a `Nat`. -/
structure FanCapabilities where
  max_speed : Nat
  fixed_speed : Bool
  allow_off : Bool
  allow_manual_auto : Bool
  allow_full_auto : Bool
deriving DecidableEq

/-- The unpacker `get_fan_capabilities`: an out-of-range mode yields the maximally
restrictive zero-capability record, otherwise `FA[mode]` is unpacked. -/
def get_fan_capabilities (state : DeviceState) (zone : Int) (mode : Nat) :
    FanCapabilities :=
  let fa_array := (get_zone_config state zone).FA.getD (List.replicate 16 0)
  if mode ≥ fa_array.length then
    { max_speed := 0, fixed_speed := true, allow_off := false,
      allow_manual_auto := false, allow_full_auto := false }
  else
    let fa_value := fa_array.getD mode 0
    { max_speed := (intLand fa_value 15).toNat
      fixed_speed := decide (0 < intLand fa_value 16)
      allow_off := decide (0 < intLand fa_value 32)
      allow_manual_auto := decide (0 < intLand fa_value 64)
      allow_full_auto := decide (0 < intLand fa_value 128) }

/-- The body of `get_available_fan_speeds` as a function of the unpacked
capability record: fixed speed forces a singleton; otherwise 0 when off is
allowed, then manual speeds 1..max_speed cut at 3 (`for` loop with `break`),
then the degenerate auto-only 128 case, then 64 and 128 for the two auto
regimes. -/
def get_available_fan_speeds_caps (c : FanCapabilities) : List Nat :=
  if c.fixed_speed then
    if c.max_speed > 0 then [c.max_speed] else [1]
  else
    let speeds : List Nat := if c.allow_off then [0] else []
    let speeds := speeds ++
      (List.range' 1 c.max_speed).takeWhile (fun speed => decide (speed ≤ 3))
    let speeds := speeds ++
      (if c.max_speed = 0 ∧ c.allow_off ∧ ¬ c.allow_manual_auto
          ∧ ¬ c.allow_full_auto then [128] else [])
    let speeds := speeds ++ (if c.allow_manual_auto then [64] else [])
    speeds ++ (if c.allow_full_auto then [128] else [])

/-- The query `get_available_fan_speeds` on the device state. -/
def get_available_fan_speeds (state : DeviceState) (zone : Int) (mode : Nat) :
    List Nat :=
  get_available_fan_speeds_caps (get_fan_capabilities state zone mode)

/-- The fan-speed composition exactly as the specification words it:
`[max_speed]` (or `[1]` when `max_speed` is 0) for fixed speed, otherwise
`[0 if allow_off] ++ [1..min(max_speed,3)] ++ [128 if degenerate auto-only]
++ [64 if manual auto] ++ [128 if full auto]`. -/
def specFanSpeeds (c : FanCapabilities) : List Nat :=
  if c.fixed_speed then
    if c.max_speed = 0 then [1] else [c.max_speed]
  else
    (if c.allow_off then [0] else [])
    ++ List.range' 1 (min c.max_speed 3)
    ++ (if c.max_speed = 0 ∧ c.allow_off ∧ ¬ c.allow_manual_auto
        ∧ ¬ c.allow_full_auto then [128] else [])
    ++ (if c.allow_manual_auto then [64] else [])
    ++ (if c.allow_full_auto then [128] else [])

/-! ### Reboot path (`reboot_device`). -/

/-- A minimal JSON value, used to state the exact wire command. -/
inductive JVal where
  | jint (n : Int)
  | jstr (s : String)
  | jobj (fields : List (String × JVal))

/-- The reset command dict built by `reboot_device`. -/
def reset_cmd : JVal :=
  .jobj [("Type", .jstr "Change"),
    ("Changes", .jobj [("zone", .jint 0), ("reset", .jstr " OK")])]

/-- Substring search over the character list, auxiliary for Python `in`. -/
def containsAux (pat : List Char) : List Char → Bool
  | [] => pat.isEmpty
  | c :: rest => pat.isPrefixOf (c :: rest) || containsAux pat rest

/-- Python `pat in s` on strings. -/
def strContains (s pat : String) : Bool :=
  containsAux pat.toList s.toList

/-- Outcome of the GATT write of the reset command. `fatal` stands for the
error classes handled only by the outer handler (timeout, OS error, ...). -/
inductive WriteOutcome where
  | ok
  | bleakError (msg : String)
  | fatal
deriving DecidableEq

/-- The outcome logic of `reboot_device`: failed connect or auth give `False`; a
successful write gives `True`; a `BleakError` during the write gives `True`
exactly when its message contains both `Error` and `133`; anything else
gives `False`. -/
def reboot_device (connect_ok auth_ok : Bool) (write : WriteOutcome) : Bool :=
  if !connect_ok then false
  else if !auth_ok then false
  else
    match write with
    | .ok => true
    | .bleakError msg => strContains msg "Error" && strContains msg "133"
    | .fatal => false

/-! ### Update fan-out (`_notify_update`). -/

/-- Python exception classes relevant to the listener dispatch. -/
inductive PyExc where
  | typeError
  | valueError
  | attributeError
  | keyError
  | other
deriving DecidableEq

/-- One registered listener, described by its behaviour: the exception (if
any) raised by `callback(state)`, and the exception (if any) raised by the
no-argument fallback call `callback()`. -/
structure Listener where
  onState : Option PyExc := none
  onNoArg : Option PyExc := none
deriving DecidableEq

/-- The no-argument fallback call is guarded by
`except (ValueError, AttributeError)` only. -/
def isolatedNoArg : Option PyExc → Bool
  | none => true
  | some .valueError => true
  | some .attributeError => true
  | some _ => false

/-- Whether dispatch to this listener lets an exception escape the loop
body of `_notify_update`: `callback(state)` is guarded by
`except TypeError` (which retries with no arguments) and
`except (ValueError, AttributeError)`; every other exception propagates. -/
def listenerAborts (b : Listener) : Bool :=
  match b.onState with
  | none => false
  | some .typeError => !isolatedNoArg b.onNoArg
  | some .valueError => false
  | some .attributeError => false
  | some _ => true

/-- The dispatch loop of `_notify_update`: the list of listeners that actually get invoked, in
registration order; an escaping exception ends the loop after the raising
listener. -/
def notify_update : List Listener → List Listener
  | [] => []
  | b :: rest => b :: (if listenerAborts b then [] else notify_update rest)

/-! ### Command queue (`send_command`, `_process_command_queue`) as a
labelled transition system. All coroutines share one event loop; the guard
in `send_command` creates the worker task only when none is alive, with no
await point between the check and the creation, so worker creation is one
atomic step. The worker removes one queue item at a time and only touches
the transport for that single item. -/

/-- Global state of the queue machinery: the history of enqueued command
ids, the queue contents, the live worker tasks (each holding the command it
currently executes against the transport, if any), and the ids already
processed, in completion order. -/
structure QueueState where
  enqueued : List Nat
  pending : List Nat
  workers : List (Option Nat)
  processed : List Nat
deriving DecidableEq

/-- Fresh state: nothing enqueued, no worker task. -/
def initQueueState : QueueState :=
  { enqueued := [], pending := [], workers := [], processed := [] }

/-- Interleaving semantics: `enqueue` is `send_command` (ensure a worker
exists, then put the item on the FIFO); `take` is the worker dequeuing the
head item; `finish` is the worker completing that item and resolving its
future. -/
inductive QueueStep : QueueState → QueueState → Prop where
  | enqueue (s : QueueState) (c : Nat) :
      QueueStep s
        { enqueued := s.enqueued ++ [c]
          pending := s.pending ++ [c]
          workers := if s.workers = [] then [none] else s.workers
          processed := s.processed }
  | take (s : QueueState) (i : Nat) (c : Nat) (restPending : List Nat)
      (hw : s.workers[i]? = some none) (hp : s.pending = c :: restPending) :
      QueueStep s
        { enqueued := s.enqueued
          pending := restPending
          workers := s.workers.set i (some c)
          processed := s.processed }
  | finish (s : QueueState) (i : Nat) (c : Nat)
      (hw : s.workers[i]? = some (some c)) :
      QueueStep s
        { enqueued := s.enqueued
          pending := s.pending
          workers := s.workers.set i none
          processed := s.processed ++ [c] }

/-- The state used by the concrete queue scenario: commands 5 and 7 were
enqueued, the worker took and finished command 5, command 7 is pending. -/
def exampleQueueState : QueueState :=
  { enqueued := [5, 7], pending := [7], workers := [none], processed := [5] }

/-- States reachable from the fresh state. -/
def QueueReachable (s : QueueState) : Prop :=
  Relation.ReflTransGen QueueStep initQueueState s

/-- The commands currently in flight against the transport. -/
def inFlight (s : QueueState) : List Nat :=
  s.workers.filterMap id

/-! ### The full parsed-JSON input domain of `decrypt`. Only
`json.JSONDecodeError` is caught, so the membership test
`"Z_sts" not in status` and the later `status.get` run on whatever value
`json.loads` produced; on non-object values they can raise. -/

/-- A top-level JSON parse result: null, boolean, number, string, array or
object (the object case carries its projection to the fields `decrypt`
reads). -/
inductive JsonValue where
  | jnull
  | jbool (b : Bool)
  | jnum (n : Int)
  | jstr (s : String)
  | jarr (elems : List JsonValue)
  | jobj (p : Payload)

/-- Python membership of the string `Z_sts` in a parsed JSON array: some
element is the string `Z_sts` (equality with a non-string element is
`False` and raises nothing). -/
def jsonListHasZsts : List JsonValue → Bool
  | [] => false
  | JsonValue.jstr s :: rest => s == "Z_sts" || jsonListHasZsts rest
  | _ :: rest => jsonListHasZsts rest

/-- The `decrypt` method over its full input domain, tracking the exception
it lets escape. `none` is a JSON parse failure (caught, default returned).
A parsed object is handled by `decrypt`. On `None`, booleans and numbers
the test `"Z_sts" not in status` itself raises `TypeError` (the value is
not iterable). On a string, `in` is a substring test: a string not
containing `Z_sts` returns the default, one containing it reaches
`status.get("PRM", [])`, which raises `AttributeError`. On an array, `in`
is element membership: without a `Z_sts` element the default is returned,
with one `status.get` raises `AttributeError`. -/
def decryptJson (prev : DeviceState) (inp : Option JsonValue) :
    Except PyExc (DeviceState × DeviceState) :=
  match inp with
  | none => .ok (failDefault, prev)
  | some (.jobj p) => .ok (decrypt prev (some p))
  | some .jnull => .error .typeError
  | some (.jbool _) => .error .typeError
  | some (.jnum _) => .error .typeError
  | some (.jstr s) =>
      if strContains s "Z_sts" then .error .attributeError
      else .ok (failDefault, prev)
  | some (.jarr elems) =>
      if jsonListHasZsts elems then .error .attributeError
      else .ok (failDefault, prev)

/-! ### Helper lemmas for the status codec -/

theorem sortAsc_ne_nil {l : List Int} (h : l ≠ []) : sortAsc l ≠ [] := by
  intro hs
  apply h
  have hlen : (sortAsc l).length = l.length := List.length_mergeSort l
  rw [hs] at hlen
  exact List.eq_nil_of_length_eq_zero hlen.symm

theorem mem_sortAsc {a : Int} {l : List Int} : a ∈ sortAsc l ↔ a ∈ l := by
  simp [sortAsc]

theorem hrStatus_zone_configs (status : Payload) (entries : List (Int × List Int)) :
    (hrStatus status entries).zone_configs = [] := by
  rw [hrStatus]
  split <;> rfl

theorem hrStatus_available_zones_ne_nil (status : Payload)
    (entries : List (Int × List Int)) :
    (hrStatus status entries).available_zones ≠ [] := by
  rw [hrStatus]
  split
  · simp
  · next h =>
    exact sortAsc_ne_nil h

theorem with_configs_eta (s : DeviceState) (c : List (Int × ZoneConfig))
    (hs : s.zone_configs = []) (hc : c = []) :
    { s with zone_configs := c } = s := by
  cases s
  cases hs
  cases hc
  rfl

theorem decrypt_eq (prev : DeviceState) (status : Payload)
    (entries : List (Int × List Int)) (hz : status.Z_sts = some entries) :
    decrypt prev (some status) =
      ({ hrStatus status entries with zone_configs := prev.zone_configs },
        { hrStatus status entries with zone_configs := prev.zone_configs }) := by
  rw [decrypt, hz]
  dsimp only
  split
  · next h =>
    rw [with_configs_eta (hrStatus status entries) prev.zone_configs
      (hrStatus_zone_configs status entries) h]
  · rfl


theorem dictLookup_dictInsert_self {α β : Type} [DecidableEq α]
    (k : α) (v : β) (d : List (α × β)) :
    dictLookup (dictInsert k v d) k = some v := by
  induction d with
  | nil => simp [dictInsert, dictLookup]
  | cons e rest ih =>
    obtain ⟨k0, v0⟩ := e
    by_cases h : k0 = k
    · simp [dictInsert, h, dictLookup]
    · simp [dictInsert, h, dictLookup, ih]

theorem dictLookup_dictInsert_ne {α β : Type} [DecidableEq α]
    (ki kq : α) (v : β) (d : List (α × β)) (h : ki ≠ kq) :
    dictLookup (dictInsert ki v d) kq = dictLookup d kq := by
  induction d with
  | nil => simp [dictInsert, dictLookup, h]
  | cons e rest ih =>
    obtain ⟨k0, v0⟩ := e
    by_cases h0 : k0 = ki
    · subst h0
      simp [dictInsert, dictLookup, h]
    · simp [dictInsert, h0, dictLookup, ih]

theorem dictLookup_foldl_insert {α β γ : Type} [DecidableEq α] (f : α × γ → β)
    (k : α) :
    ∀ (l : List (α × γ)) (d : List (α × β)),
      dictLookup (l.foldl (fun acc e => dictInsert e.fst (f e) acc) d) k =
        (match l.reverse.find? (fun e => decide (e.fst = k)) with
          | some e => some (f e)
          | none => dictLookup d k)
  | [], d => rfl
  | e0 :: l, d => by
    rw [List.foldl_cons, dictLookup_foldl_insert f k l, List.reverse_cons,
      List.find?_append]
    cases hf : l.reverse.find? (fun e => decide (e.fst = k)) with
    | some e => rfl
    | none =>
      simp only [Option.none_or]
      by_cases h0 : e0.fst = k
      · simp only [List.find?]
        rw [decide_eq_true h0, h0]
        exact dictLookup_dictInsert_self k (f e0) d
      · simp only [List.find?]
        rw [decide_eq_false h0]
        exact dictLookup_dictInsert_ne e0.fst k (f e0) d h0

theorem find_key_of_nodup {α γ : Type} [DecidableEq α] :
    ∀ {l : List (α × γ)}, (l.map Prod.fst).Nodup → ∀ {e : α × γ}, e ∈ l →
      l.find? (fun x => decide (x.fst = e.fst)) = some e := by
  intro l
  induction l with
  | nil =>
    intro _ e he
    exact absurd he (List.not_mem_nil e)
  | cons a l ih =>
    intro hnd e he
    have hnd2 := hnd
    rw [List.map_cons, List.nodup_cons] at hnd2
    rcases List.mem_cons.mp he with rfl | hmem
    · simp [List.find?]
    · have hne : a.fst ≠ e.fst := by
        intro hcontra
        exact hnd2.1 (hcontra ▸ List.mem_map_of_mem Prod.fst hmem)
      simp only [List.find?]
      rw [decide_eq_false hne]
      exact ih hnd2.2 hmem

/-! ### Claim theorems: status codec -/

/-- C1 (code bug): the docstring of `decrypt` and the specification both
promise that unparsable payloads and payloads without `Z_sts` yield the
single-zone-zero default and that no exception is raised, but the source
only catches `json.JSONDecodeError`: a payload parsing to a JSON scalar
(for example the bytes `5`, which lack `Z_sts`) raises `TypeError` at the
membership test, and a JSON string or array containing `Z_sts` raises
`AttributeError` at `status.get`; the parse-failure, missing-key-object,
plain-string and plain-array paths do return exactly the default, whose
`available_zones` is the non-empty `[0]`. -/
theorem c1_decrypt_raises_on_nonobject_json :
    decryptJson {} (some (JsonValue.jnum 5)) = Except.error PyExc.typeError
    ∧ decryptJson {} (some JsonValue.jnull) = Except.error PyExc.typeError
    ∧ decryptJson {} (some (JsonValue.jbool true)) = Except.error PyExc.typeError
    ∧ decryptJson {} (some (JsonValue.jstr "a Z_sts carrier"))
        = Except.error PyExc.attributeError
    ∧ decryptJson {} (some (JsonValue.jarr [JsonValue.jstr "Z_sts"]))
        = Except.error PyExc.attributeError
    ∧ decryptJson {} none = Except.ok (failDefault, {})
    ∧ decryptJson {} (some (JsonValue.jobj {})) = Except.ok (failDefault, {})
    ∧ decryptJson {} (some (JsonValue.jstr "plain"))
        = Except.ok (failDefault, {})
    ∧ decryptJson {} (some (JsonValue.jarr [JsonValue.jnum 3]))
        = Except.ok (failDefault, {})
    ∧ failDefault.available_zones = [0] :=
  ⟨rfl, rfl, rfl, rfl, rfl, rfl, rfl, rfl, rfl, rfl⟩

/-- C3: `zone_configs` (read back the way the source reads it, with the
empty dict standing for an absent key) is invariant under `decrypt`: it is
untouched on the error paths and carried forward unconditionally on
success, including across two successive decodes, while on success every
other top-level field is replaced wholesale by the freshly built
`hr_status`. -/
theorem c3_zone_configs_invariant :
    (∀ prev inp, (decrypt prev inp).snd.zone_configs = prev.zone_configs)
    ∧ (∀ prev p q,
        (decrypt (decrypt prev p).snd q).snd.zone_configs = prev.zone_configs)
    ∧ (∀ prev status entries, status.Z_sts = some entries →
        (decrypt prev (some status)).snd =
          { hrStatus status entries with zone_configs := prev.zone_configs }) := by
  have main : ∀ prev inp, (decrypt prev inp).snd.zone_configs = prev.zone_configs := by
    intro prev inp
    cases inp with
    | none => rfl
    | some status =>
      cases hz : status.Z_sts with
      | none =>
        rw [decrypt, hz]
      | some entries =>
        rw [decrypt_eq prev status entries hz]
  refine ⟨main, fun prev p q => ?_, fun prev status entries hz => ?_⟩
  · rw [main, main]
  · rw [decrypt_eq prev status entries hz]

/-- Witness for C3 at a concrete prior state and payload. -/
theorem c3_witness :
    (c8payload.Z_sts =
      some [((0 : Int), [70, 75, 72, 70, 0, 0, 1, 2, 5, 128, 5, 0, 68, 0, 0, 4])])
    ∧ (decrypt {} (some c8payload)).snd =
        { hrStatus c8payload
            [((0 : Int), [70, 75, 72, 70, 0, 0, 1, 2, 5, 128, 5, 0, 68, 0, 0, 4])]
          with zone_configs := ({} : DeviceState).zone_configs } :=
  ⟨rfl, c3_zone_configs_invariant.2.2 {} c8payload _ rfl⟩

/-- C8: decoding the payload with
`Z_sts = 0 : [70,75,72,70,0,0,1,2,5,128,5,0,68,0,0,4]` and `PRM = [0,8]`
yields zone 0 with `mode_num = 5` mapped to mode `heat_on`,
`current_mode = heat` (bit 2 of active state 4), power `on = true` and
`off = false` (`PRM[1] & 8` non-zero), and `facePlateTemperature = 68`. -/
theorem c8_end_to_end_heat_scenario :
    ((dictLookup (decrypt {} (some c8payload)).fst.zones 0).map
        (fun z : ZoneStatus => z.mode_num) = some (some 5))
    ∧ ((dictLookup (decrypt {} (some c8payload)).fst.zones 0).map
        (fun z : ZoneStatus => z.mode) = some (some "heat_on"))
    ∧ ((dictLookup (decrypt {} (some c8payload)).fst.zones 0).map
        (fun z : ZoneStatus => z.current_mode) = some (some "heat"))
    ∧ ((dictLookup (decrypt {} (some c8payload)).fst.zones 0).map
        (fun z : ZoneStatus => z.«on») = some (some true))
    ∧ ((dictLookup (decrypt {} (some c8payload)).fst.zones 0).map
        (fun z : ZoneStatus => z.off) = some (some false))
    ∧ ((dictLookup (decrypt {} (some c8payload)).fst.zones 0).map
        (fun z : ZoneStatus => z.facePlateTemperature) = some (some 68)) := by
  decide


/-- C7 counterexample: the claim says every zone whose status array is
shorter than 16 elements is excluded from `available_zones` and `zones`,
but when no zone at all validates, the synthetic default puts zone 0 into
both, so a short zone with key 0 is not excluded. -/
theorem c7_counterexample :
    ([(70 : Int)].length < 16)
    ∧ (0 : Int) ∈ (decrypt {} (some c7shortPayload)).fst.available_zones
    ∧ dictLookup (decrypt {} (some c7shortPayload)).fst.zones 0 =
        some ({} : ZoneStatus) := by
  decide

/-- C7 amended: in a payload with a `Z_sts` entry list with distinct zone
keys in which at least one zone validates, every zone with a status array
shorter than 16 elements is excluded from the returned `available_zones`
and `zones`, and every zone with a full array is decoded normally (the
short array does not abort the decode). -/
theorem c7_short_zone_skipped (prev : DeviceState) (status : Payload)
    (entries : List (Int × List Int)) (hz : status.Z_sts = some entries)
    (hnd : (entries.map Prod.fst).Nodup)
    (hvalid : ∃ e, e ∈ entries ∧ ¬ e.snd.length < 16)
    (k : Int) (arr : List Int) (hmem : (k, arr) ∈ entries)
    (hshort : arr.length < 16) :
    (k ∉ (decrypt prev (some status)).fst.available_zones
      ∧ dictLookup (decrypt prev (some status)).fst.zones k = none)
    ∧ (∀ k2 arr2, (k2, arr2) ∈ entries → ¬ arr2.length < 16 →
        k2 ∈ (decrypt prev (some status)).fst.available_zones
        ∧ dictLookup (decrypt prev (some status)).fst.zones k2 =
            some (decodeZone status.PRM arr2)) := by
  have hval : ∀ {e : Int × List Int}, e ∈ entries → ¬ e.snd.length < 16 →
      e ∈ entries.filter (fun e => !decide (e.snd.length < 16)) := by
    intro e hm hl
    rw [List.mem_filter]
    exact ⟨hm, by simpa using hl⟩
  obtain ⟨e0, he0, he0len⟩ := hvalid
  have hvfilter := hval he0 he0len
  have hvne : entries.filter (fun e => !decide (e.snd.length < 16)) ≠ [] := by
    intro hempty
    rw [hempty] at hvfilter
    exact List.not_mem_nil e0 hvfilter
  have hndv : ((entries.filter (fun e => !decide (e.snd.length < 16))).map
      Prod.fst).Nodup :=
    List.Nodup.sublist (List.Sublist.map Prod.fst (List.filter_sublist entries)) hnd
  have hkabs : k ∉ (entries.filter (fun e => !decide (e.snd.length < 16))).map
      Prod.fst := by
    intro hk
    obtain ⟨e, hev, hefst⟩ := List.mem_map.mp hk
    have he1 : e ∈ entries := (List.mem_filter.mp hev).1
    have he2 : ¬ e.snd.length < 16 := by
      have := (List.mem_filter.mp hev).2
      simpa using this
    have heq : e = (k, arr) :=
      List.inj_on_of_nodup_map hnd he1 hmem (by simpa using hefst)
    rw [heq] at he2
    exact he2 hshort
  rw [decrypt_eq prev status entries hz]
  rw [hrStatus]
  simp only [hvne, reduceIte, List.map_eq_nil_iff]
  constructor
  · constructor
    · intro hk
      exact hkabs (mem_sortAsc.mp hk)
    · rw [dictLookup_foldl_insert]
      have hnone : (entries.filter
          (fun e => !decide (e.snd.length < 16))).reverse.find?
            (fun x => decide (x.fst = k)) = none := by
        rw [List.find?_eq_none]
        intro x hx hpx
        rw [decide_eq_true_eq] at hpx
        exact hkabs (hpx ▸ List.mem_map_of_mem Prod.fst (List.mem_reverse.mp hx))
      rw [hnone]
      rfl
  · intro k2 arr2 hm2 hl2
    have hv2 := hval hm2 hl2
    constructor
    · exact mem_sortAsc.mpr (List.mem_map_of_mem Prod.fst hv2)
    · rw [dictLookup_foldl_insert]
      have hfind : (entries.filter
          (fun e => !decide (e.snd.length < 16))).reverse.find?
            (fun x => decide (x.fst = k2)) = some (k2, arr2) := by
        have := @find_key_of_nodup Int (List Int) _
          ((entries.filter (fun e => !decide (e.snd.length < 16))).reverse)
          (by simpa using hndv) (k2, arr2) (List.mem_reverse.mpr hv2)
        simpa using this
      rw [hfind]

/-- Witness for the amended C7 theorem: a payload with a short zone 0 and a
valid zone 1. -/
theorem c7_witness :
    ((0 : Int), ([70] : List Int)) ∈
        [((0 : Int), ([70] : List Int)),
          (1, [70, 75, 72, 70, 0, 0, 1, 2, 5, 128, 5, 0, 68, 0, 0, 4])]
    ∧ (0 : Int) ∉ (decrypt {} (some
        { Z_sts := some [((0 : Int), ([70] : List Int)),
            (1, [70, 75, 72, 70, 0, 0, 1, 2, 5, 128, 5, 0, 68, 0, 0, 4])]
          PRM := [0, 8] })).fst.available_zones := by
  refine ⟨by decide, ?_⟩
  exact (c7_short_zone_skipped {}
    { Z_sts := some [((0 : Int), ([70] : List Int)),
        (1, [70, 75, 72, 70, 0, 0, 1, 2, 5, 128, 5, 0, 68, 0, 0, 4])]
      PRM := [0, 8] }
    [((0 : Int), ([70] : List Int)),
      (1, [70, 75, 72, 70, 0, 0, 1, 2, 5, 128, 5, 0, 68, 0, 0, 4])]
    rfl (by decide) ⟨(1, [70, 75, 72, 70, 0, 0, 1, 2, 5, 128, 5, 0, 68, 0, 0, 4]),
      by decide, by decide⟩
    0 [70] (by decide) (by decide)).1.1


/-! ### Helper lemmas for the adaptive delay table -/

theorem zero_lt_tenth : (0 : Rat) < 1 / 10 := by norm_num

theorem repeatIncrease_lookup (address operation : String) :
    ∀ n : Nat,
      dictLookup (repeatIncrease address operation (n + 1)) (address, operation)
        = some ⟨min ((1 : Rat) / 2 * 2 ^ min (n + 1) 3) MAX_DELAY, n + 1⟩ := by
  intro n
  induction n with
  | zero => exact dictLookup_dictInsert_self (address, operation) _ []
  | succ n ih =>
    show dictLookup (increase_operation_delay
      (repeatIncrease address operation (n + 1)) address operation)
        (address, operation) = _
    rw [increase_operation_delay, ih]
    exact dictLookup_dictInsert_self (address, operation) _ _

theorem repeatIncrease_lookup_pos (address operation : String) (n : Nat)
    (hn : 0 < n) :
    dictLookup (repeatIncrease address operation n) (address, operation)
      = some ⟨min ((1 : Rat) / 2 * 2 ^ min n 3) MAX_DELAY, n⟩ := by
  cases n with
  | zero => exact absurd hn (lt_irrefl 0)
  | succ m => exact repeatIncrease_lookup address operation m

theorem repeatIncrease_lookup_ne (address operation : String)
    (key : String × String) (hk : key ≠ (address, operation)) :
    ∀ n, dictLookup (repeatIncrease address operation n) key = none := by
  intro n
  induction n with
  | zero => rfl
  | succ n ih =>
    show dictLookup (increase_operation_delay
      (repeatIncrease address operation n) address operation) key = none
    rw [increase_operation_delay]
    rw [dictLookup_dictInsert_ne _ _ _ _ (Ne.symm hk)]
    exact ih

theorem adjust_lookup_succ (t : DelayTable) (address operation : String)
    (d : Rat) (f : Nat)
    (h : dictLookup t (address, operation) = some { delay := d, failures := f + 1 }) :
    dictLookup (adjust_operation_delay t address operation) (address, operation)
      = some (if f = 0 ∧ max 0 (d * (3 / 4 : Rat)) < 1 / 10
          then { delay := 0, failures := f }
          else { delay := max 0 (d * (3 / 4 : Rat)), failures := f }) := by
  rw [adjust_operation_delay, h]
  dsimp only
  rw [if_pos (Nat.succ_pos f)]
  simp only [Nat.add_sub_cancel]
  exact dictLookup_dictInsert_self (address, operation) _ t

theorem adjust_lookup_zero (t : DelayTable) (address operation : String)
    (d : Rat) (h : dictLookup t (address, operation) = some { delay := d, failures := 0 })
    (hd : d < 1 / 10) :
    dictLookup (adjust_operation_delay t address operation) (address, operation)
      = some { delay := 0, failures := 0 } := by
  rw [adjust_operation_delay, h]
  dsimp only
  rw [if_neg (lt_irrefl 0), if_pos ⟨rfl, hd⟩]
  exact dictLookup_dictInsert_self (address, operation) _ t

theorem increase_lookup_other (t : DelayTable) (address operation : String)
    (key : String × String) (hk : key ≠ (address, operation)) :
    dictLookup (increase_operation_delay t address operation) key
      = dictLookup t key := by
  rw [increase_operation_delay]
  exact dictLookup_dictInsert_ne _ _ _ _ (Ne.symm hk)

theorem adjust_lookup_other (t : DelayTable) (address operation : String)
    (key : String × String) (hk : key ≠ (address, operation)) :
    dictLookup (adjust_operation_delay t address operation) key
      = dictLookup t key := by
  rw [adjust_operation_delay]
  cases hl : dictLookup t (address, operation) with
  | none => rfl
  | some cur =>
    dsimp only
    exact dictLookup_dictInsert_ne _ _ _ _ (Ne.symm hk)

/-! ### Claim theorems: adaptive delay table -/

/-- C4 counterexample: after 4 consecutive failures on one key the code
stores delay 4 (the exponent is clamped at 3), while the claim formula
`min(0.5 * 2 ^ n, 6.0)` gives 6 at `n = 4`. -/
theorem c4_counterexample :
    (dictLookup (repeatIncrease "addrA" "write" 4) ("addrA", "write")).map
        OpDelay.delay = some 4
    ∧ min ((1 : Rat) / 2 * 2 ^ 4) 6 = 6
    ∧ (4 : Rat) ≠ 6 := by
  refine ⟨?_, by norm_num, by norm_num⟩
  rw [repeatIncrease_lookup_pos "addrA" "write" 4 (by norm_num)]
  simp only [Option.map_some']
  congr 1
  norm_num [MAX_DELAY]

/-- C4 amended: entries are keyed by (address, operation) and created on the
first failure; after `n` consecutive failures the delay is
`min(0.5 * 2 ^ min(n, 3), 6.0)` (the doubling stops at 4.0 because the
exponent is clamped at 3, so the 6.0 cap is never reached); a success with a
positive failure count decrements it and multiplies the delay by 0.75, and
once the count is zero with delay below 0.1 the delay resets to exactly 0;
operations on one key leave every other key unchanged. Concretely, 3
failures on (addrA, write) give delay 4.0, one success then gives delay 3.0
with failure count 2, and (addrB, write) stays absent throughout. -/
theorem c4_adaptive_delay :
    (∀ address operation : String, ∀ n : Nat, 0 < n →
      dictLookup (repeatIncrease address operation n) (address, operation)
        = some ⟨min ((1 : Rat) / 2 * 2 ^ min n 3) MAX_DELAY, n⟩)
    ∧ (∀ (t : DelayTable) (address operation : String) (d : Rat) (f : Nat),
        dictLookup t (address, operation) = some { delay := d, failures := f + 1 } →
        dictLookup (adjust_operation_delay t address operation) (address, operation)
          = some (if f = 0 ∧ max 0 (d * (3 / 4 : Rat)) < 1 / 10
              then { delay := 0, failures := f }
              else { delay := max 0 (d * (3 / 4 : Rat)), failures := f }))
    ∧ (∀ (t : DelayTable) (address operation : String) (d : Rat),
        dictLookup t (address, operation) = some { delay := d, failures := 0 } →
        d < 1 / 10 →
        dictLookup (adjust_operation_delay t address operation) (address, operation)
          = some { delay := 0, failures := 0 })
    ∧ (∀ (t : DelayTable) (address operation : String) (key : String × String),
        key ≠ (address, operation) →
        dictLookup (increase_operation_delay t address operation) key
            = dictLookup t key
          ∧ dictLookup (adjust_operation_delay t address operation) key
            = dictLookup t key)
    ∧ ((dictLookup (repeatIncrease "addrA" "write" 3) ("addrA", "write")).map
          OpDelay.delay = some 4
        ∧ dictLookup (adjust_operation_delay (repeatIncrease "addrA" "write" 3)
            "addrA" "write") ("addrA", "write")
          = some { delay := 3, failures := 2 }
        ∧ (∀ n : Nat, dictLookup (repeatIncrease "addrA" "write" n)
            ("addrB", "write") = none)
        ∧ dictLookup (adjust_operation_delay (repeatIncrease "addrA" "write" 3)
            "addrA" "write") ("addrB", "write") = none) := by
  have h3 : dictLookup (repeatIncrease "addrA" "write" 3) ("addrA", "write")
      = some { delay := 4, failures := 3 } := by
    rw [repeatIncrease_lookup_pos "addrA" "write" 3 (by norm_num)]
    have : min ((1 : Rat) / 2 * 2 ^ min 3 3) MAX_DELAY = 4 := by
      norm_num [MAX_DELAY]
    rw [this]
  refine ⟨repeatIncrease_lookup_pos, adjust_lookup_succ, adjust_lookup_zero,
    fun t a o key hk => ⟨increase_lookup_other t a o key hk,
      adjust_lookup_other t a o key hk⟩, ?_, ?_, ?_, ?_⟩
  · rw [h3]
    rfl
  · rw [adjust_lookup_succ (repeatIncrease "addrA" "write" 3) "addrA" "write" 4 2 h3]
    rw [if_neg (by norm_num)]
    have : max (0 : Rat) (4 * (3 / 4)) = 3 := by norm_num
    rw [this]
  · exact repeatIncrease_lookup_ne "addrA" "write" ("addrB", "write") (by decide)
  · rw [adjust_lookup_other (repeatIncrease "addrA" "write" 3) "addrA" "write"
      ("addrB", "write") (by decide)]
    exact repeatIncrease_lookup_ne "addrA" "write" ("addrB", "write") (by decide) 3

/-- Witness for the amended C4 theorem, instantiating each universally
quantified part at concrete tables and keys. -/
theorem c4_witness :
    dictLookup (repeatIncrease "A" "w" 1) ("A", "w")
        = some ⟨min ((1 : Rat) / 2 * 2 ^ min 1 3) MAX_DELAY, 1⟩
    ∧ dictLookup (adjust_operation_delay
          [(("A", "w"), { delay := 4, failures := 3 })] "A" "w") ("A", "w")
        = some (if 2 = 0 ∧ max 0 ((4 : Rat) * (3 / 4)) < 1 / 10
            then { delay := 0, failures := 2 }
            else { delay := max 0 ((4 : Rat) * (3 / 4)), failures := 2 })
    ∧ dictLookup (adjust_operation_delay
          [(("A", "w"), { delay := 0, failures := 0 })] "A" "w") ("A", "w")
        = some { delay := 0, failures := 0 }
    ∧ dictLookup (increase_operation_delay [] "A" "w") ("B", "w")
        = dictLookup ([] : DelayTable) ("B", "w") :=
  ⟨c4_adaptive_delay.1 "A" "w" 1 Nat.one_pos,
    c4_adaptive_delay.2.1 [(("A", "w"), { delay := 4, failures := 3 })]
      "A" "w" 4 2 rfl,
    c4_adaptive_delay.2.2.1 [(("A", "w"), { delay := 0, failures := 0 })]
      "A" "w" 0 rfl zero_lt_tenth,
    (c4_adaptive_delay.2.2.2.1 [] "A" "w" ("B", "w") (by decide)).1⟩


/-! ### Helper lemmas for the capability model -/

theorem ldiff_two_pow_pos (a m : Nat) :
    0 < Nat.ldiff (2 ^ m) a ↔ a.testBit m = false := by
  constructor
  · intro hpos
    by_contra hcontra
    rw [Bool.not_eq_false] at hcontra
    have hz : Nat.ldiff (2 ^ m) a = 0 := by
      apply Nat.eq_of_testBit_eq
      intro j
      rw [Nat.testBit_ldiff, Nat.zero_testBit]
      by_cases hj : m = j
      · subst hj
        simp [Nat.testBit_two_pow_self, hcontra]
      · simp [Nat.testBit_two_pow, hj]
    omega
  · intro htb
    have hbit : (Nat.ldiff (2 ^ m) a).testBit m = true := by
      rw [Nat.testBit_ldiff, Nat.testBit_two_pow_self, htb]
      rfl
    rcases Nat.eq_zero_or_pos (Nat.ldiff (2 ^ m) a) with hz | hp
    · rw [hz, Nat.zero_testBit] at hbit
      exact absurd hbit (by decide)
    · exact hp

theorem intLand_shift_pos (mav : Int) (m : Nat) :
    (0 < intLand mav (Int.ofNat (1 <<< m))) ↔ mav.testBit m = true := by
  have h2 : (1 <<< m) = 2 ^ m := by rw [Nat.shiftLeft_eq, one_mul]
  cases mav with
  | ofNat a =>
    have hland : intLand (Int.ofNat a) (Int.ofNat (1 <<< m))
        = Int.ofNat (a &&& 2 ^ m) := by
      rw [show intLand (Int.ofNat a) (Int.ofNat (1 <<< m))
        = Int.ofNat (a &&& (1 <<< m)) from rfl, h2]
    rw [hland]
    have htb : (Int.ofNat a).testBit m = a.testBit m := rfl
    rw [htb, Nat.and_two_pow]
    cases hb : a.testBit m
    · simp only [Bool.toNat_false, Nat.zero_mul]
      constructor
      · intro h
        exact absurd h (lt_irrefl _)
      · intro h
        exact absurd h (by decide)
    · simp only [Bool.toNat_true, Nat.one_mul, Int.ofNat_eq_coe]
      constructor
      · intro _
        trivial
      · intro _
        have := Nat.two_pow_pos m
        omega
  | negSucc a =>
    have hland : intLand (Int.negSucc a) (Int.ofNat (1 <<< m))
        = Int.ofNat (Nat.ldiff (2 ^ m) a) := by
      rw [show intLand (Int.negSucc a) (Int.ofNat (1 <<< m))
        = Int.ofNat (Nat.ldiff (1 <<< m) a) from rfl, h2]
    rw [hland]
    have htb : (Int.negSucc a).testBit m = !(a.testBit m) := rfl
    rw [htb]
    constructor
    · intro h
      have hN : 0 < Nat.ldiff (2 ^ m) a := by
        simp only [Int.ofNat_eq_coe] at h
        omega
      rw [(ldiff_two_pow_pos a m).mp hN]
      rfl
    · intro h
      have hf : a.testBit m = false := by
        cases hx : a.testBit m
        · rfl
        · rw [hx] at h
          exact absurd h (by decide)
      have hN := (ldiff_two_pow_pos a m).mpr hf
      simp only [Int.ofNat_eq_coe]
      omega

/-! ### Claim theorems: mode availability -/

/-- C5: for every zone and mode up to 15, `is_mode_available` is `true`
whenever the effective `MAV` value is 0 (in particular when no config has
been fetched for the zone), and otherwise it returns exactly whether bit
`mode` of `MAV` is set. -/
theorem c5_is_mode_available (state : DeviceState) (zone : Int) (mode : Nat)
    (_hmode : mode ≤ 15) :
    ((get_zone_config state zone).MAV.getD 0 = 0 →
      is_mode_available state zone mode = true)
    ∧ (dictLookup state.zone_configs zone = none →
      is_mode_available state zone mode = true)
    ∧ ((get_zone_config state zone).MAV.getD 0 ≠ 0 →
      (is_mode_available state zone mode = true ↔
        ((get_zone_config state zone).MAV.getD 0).testBit mode = true)) := by
  refine ⟨fun h0 => ?_, fun hnone => ?_, fun hne => ?_⟩
  · rw [is_mode_available]
    rw [if_pos h0]
  · rw [is_mode_available, get_zone_config, hnone]
    rfl
  · rw [is_mode_available]
    rw [if_neg hne, decide_eq_true_eq]
    exact intLand_shift_pos ((get_zone_config state zone).MAV.getD 0) mode

/-- Witness for C5: a state whose zone 0 has `MAV = 5`, queried at mode 2,
and the unfetched zone 1. -/
theorem c5_witness :
    (is_mode_available { zone_configs := [((0 : Int), { MAV := some 5 })] } 0 2 = true
      ↔ ((get_zone_config { zone_configs := [((0 : Int), { MAV := some 5 })] }
          0).MAV.getD 0).testBit 2 = true)
    ∧ is_mode_available { zone_configs := [((0 : Int), { MAV := some 5 })] } 1 2
        = true :=
  ⟨(c5_is_mode_available { zone_configs := [((0 : Int), { MAV := some 5 })] }
      0 2 (by decide)).2.2 (by decide),
    (c5_is_mode_available { zone_configs := [((0 : Int), { MAV := some 5 })] }
      1 2 (by decide)).2.1 rfl⟩


/-! ### Helper lemma for the fan-speed loop -/

theorem takeWhile_le_three :
    ∀ m : Nat, (List.range' 1 m).takeWhile (fun speed => decide (speed ≤ 3))
      = List.range' 1 (min m 3)
  | 0 => rfl
  | 1 => by decide
  | 2 => by decide
  | 3 => by decide
  | (n + 4) => by
    have hsplit : List.range' 1 (n + 4) = 1 :: 2 :: 3 :: 4 :: List.range' 5 n := by
      rw [List.range'_succ, List.range'_succ, List.range'_succ, List.range'_succ]
    rw [hsplit, show min (n + 4) 3 = 3 by omega]
    rfl

/-! ### Claim theorems: fan speeds -/

/-- C6: for every capability record, `get_available_fan_speeds` is exactly
the fixed-speed singleton (`[max_speed]`, or `[1]` when `max_speed` is 0)
or the ordered composition `[0 if allow_off] ++ [1..min(max_speed,3)] ++
[128 in the degenerate auto-only case] ++ [64 if manual auto] ++
[128 if full auto]`; in particular a fixed-speed record with `max_speed = 2`
yields exactly `[2]`. -/
theorem c6_fan_speeds :
    (∀ c : FanCapabilities, get_available_fan_speeds_caps c = specFanSpeeds c)
    ∧ (∀ ao am af : Bool,
        get_available_fan_speeds_caps
          { max_speed := 2, fixed_speed := true, allow_off := ao,
            allow_manual_auto := am, allow_full_auto := af } = [2])
    ∧ (∀ (state : DeviceState) (zone : Int) (mode : Nat),
        get_available_fan_speeds state zone mode
          = specFanSpeeds (get_fan_capabilities state zone mode)) := by
  have main : ∀ c : FanCapabilities,
      get_available_fan_speeds_caps c = specFanSpeeds c := by
    intro c
    obtain ⟨ms, fs, ao, am, af⟩ := c
    cases fs
    · rw [get_available_fan_speeds_caps, specFanSpeeds]
      dsimp only
      rw [takeWhile_le_three]
      simp [List.append_assoc]
    · rw [get_available_fan_speeds_caps, specFanSpeeds]
      dsimp only
      cases ms with
      | zero => rfl
      | succ m => simp
  refine ⟨main, fun ao am af => ?_, fun state zone mode => main _⟩
  rw [main]
  rfl


/-! ### Claim theorems: reboot and update fan-out -/

/-- C9 counterexample: a transport error whose message contains `133` but
not `Error` makes `reboot_device` return `False`, although the claim says
any message containing `133` is treated as success. -/
theorem c9_counterexample :
    strContains "133" "133" = true
    ∧ reboot_device true true (WriteOutcome.bleakError "133") = false := by
  decide

/-- C9 amended: `reboot_device` sends exactly the command
`Type: Change, Changes: (zone: 0, reset: " OK")`, and a transport error
raised by that write is treated as success exactly when its message
contains both `Error` and `133`. -/
theorem c9_reboot_error_133 (msg : String)
    (hE : strContains msg "Error" = true) (h133 : strContains msg "133" = true) :
    reset_cmd = JVal.jobj [("Type", JVal.jstr "Change"),
        ("Changes", JVal.jobj [("zone", JVal.jint 0), ("reset", JVal.jstr " OK")])]
    ∧ reboot_device true true (WriteOutcome.bleakError msg) = true := by
  refine ⟨rfl, ?_⟩
  rw [reboot_device]
  simp [hE, h133]

/-- Witness for the amended C9 theorem at a concrete message. -/
theorem c9_witness :
    reset_cmd = JVal.jobj [("Type", JVal.jstr "Change"),
        ("Changes", JVal.jobj [("zone", JVal.jint 0), ("reset", JVal.jstr " OK")])]
    ∧ reboot_device true true (WriteOutcome.bleakError "Error 133") = true :=
  c9_reboot_error_133 "Error 133" (by decide) (by decide)

/-- C10 counterexample: a listener raising `KeyError` (not one of the
handled classes) escapes the dispatch loop, so the second listener is never
invoked. -/
theorem c10_counterexample :
    notify_update [{ onState := some PyExc.keyError }, ({} : Listener)]
      = [{ onState := some PyExc.keyError }]
    ∧ ({} : Listener) ∉
        notify_update [{ onState := some PyExc.keyError }, ({} : Listener)] := by
  decide

/-- C10 amended: every registered listener is invoked, in order, provided
each exception a listener raises is a `TypeError` (whose no-argument retry
may itself raise only `ValueError` or `AttributeError`), `ValueError` or
`AttributeError` — those are isolated per listener; a listener raising any
other exception ends the dispatch immediately after itself. -/
theorem c10_listener_isolation :
    (∀ ls : List Listener, (∀ b ∈ ls, listenerAborts b = false) →
      notify_update ls = ls)
    ∧ (∀ (pre : List Listener) (b : Listener) (post : List Listener),
        (∀ x ∈ pre, listenerAborts x = false) → listenerAborts b = true →
        notify_update (pre ++ b :: post) = pre ++ [b]) := by
  constructor
  · intro ls h
    induction ls with
    | nil => rfl
    | cons b rest ih =>
      rw [notify_update]
      rw [h b (List.mem_cons_self b rest)]
      rw [ih (fun x hx => h x (List.mem_cons_of_mem b hx))]
      rfl
  · intro pre b post hpre hb
    induction pre with
    | nil =>
      rw [List.nil_append, notify_update, hb]
      rfl
    | cons a rest ih =>
      rw [List.cons_append, notify_update]
      rw [hpre a (List.mem_cons_self a rest)]
      rw [ih (fun x hx => hpre x (List.mem_cons_of_mem a hx))]
      rfl

/-- Witness for the amended C10 theorem: three listeners whose exceptions
are all within the isolated classes are all invoked. -/
theorem c10_witness :
    notify_update
      [{ onState := some PyExc.typeError, onNoArg := some PyExc.valueError },
        { onState := some PyExc.attributeError }, ({} : Listener)]
      = [{ onState := some PyExc.typeError, onNoArg := some PyExc.valueError },
          { onState := some PyExc.attributeError }, ({} : Listener)] :=
  c10_listener_isolation.1
    [{ onState := some PyExc.typeError, onNoArg := some PyExc.valueError },
      { onState := some PyExc.attributeError }, ({} : Listener)]
    (by decide)


/-! ### Helper lemmas for the command queue -/

theorem workers_singleton {l : List (Option Nat)} (hlen : l.length ≤ 1)
    {i : Nat} {w : Option Nat} (hw : l[i]? = some w) : l = [w] ∧ i = 0 := by
  match l, i with
  | [], i => simp at hw
  | [x], 0 =>
    simp at hw
    exact ⟨by rw [hw], rfl⟩
  | [x], (i + 1) => simp at hw
  | x :: y :: rest, _ => simp at hlen

theorem queue_invariant (s : QueueState) (h : QueueReachable s) :
    s.workers.length ≤ 1
      ∧ s.enqueued = s.processed ++ (inFlight s ++ s.pending) := by
  induction h with
  | refl => exact ⟨Nat.zero_le 1, rfl⟩
  | tail hab hstep ih =>
    obtain ⟨ihw, ihe⟩ := ih
    cases hstep with
    | enqueue c =>
      constructor
      · dsimp only
        split
        · decide
        · exact ihw
      · dsimp only [inFlight] at ihe ⊢
        split
        · next hw =>
          rw [hw] at ihe
          simp only [List.filterMap_nil, List.nil_append] at ihe
          simp [ihe]
        · rw [ihe]
          simp [List.append_assoc]
    | take i c restPending hw hp =>
      obtain ⟨hw1, hi⟩ := workers_singleton ihw hw
      subst hi
      constructor
      · dsimp only
        rw [hw1]
        simp
      · dsimp only [inFlight] at ihe ⊢
        rw [hw1] at ihe ⊢
        rw [hp] at ihe
        simp only [List.filterMap, List.set] at ihe ⊢
        simpa using ihe
    | finish i c hw =>
      obtain ⟨hw1, hi⟩ := workers_singleton ihw hw
      subst hi
      constructor
      · dsimp only
        rw [hw1]
        simp
      · dsimp only [inFlight] at ihe ⊢
        rw [hw1] at ihe ⊢
        simp only [List.filterMap, List.set] at ihe ⊢
        rw [ihe]
        simp [List.append_assoc]

/-! ### Claim theorems: command queue -/

/-- C2: in every reachable state of the queue system, the processed
commands are a prefix of the enqueued commands in enqueue order (FIFO), at
most one command is in flight against the transport, and the enqueued
history is exactly processed, then in-flight, then still pending. -/
theorem c2_fifo_single_flight (s : QueueState) (h : QueueReachable s) :
    (s.processed <+: s.enqueued)
    ∧ (inFlight s).length ≤ 1
    ∧ s.enqueued = s.processed ++ (inFlight s ++ s.pending) := by
  have hi := queue_invariant s h
  refine ⟨⟨inFlight s ++ s.pending, hi.2.symm⟩, ?_, hi.2⟩
  calc (inFlight s).length ≤ s.workers.length := List.length_filterMap_le _ _
    _ ≤ 1 := hi.1

/-- Witness for C2: the state reached by enqueueing commands 5 and 7, then
letting the worker take and finish command 5. -/
theorem c2_witness :
    ([5] <+: [5, 7]) ∧ (inFlight exampleQueueState).length ≤ 1 := by
  have h0 : QueueReachable initQueueState := Relation.ReflTransGen.refl
  have h1 := Relation.ReflTransGen.tail h0 (QueueStep.enqueue initQueueState 5)
  have h2 := Relation.ReflTransGen.tail h1 (QueueStep.enqueue _ 7)
  have h3 := Relation.ReflTransGen.tail h2 (QueueStep.take _ 0 5 [7] rfl rfl)
  have h4 := Relation.ReflTransGen.tail h3 (QueueStep.finish _ 0 5 rfl)
  have hr : QueueReachable exampleQueueState := h4
  have hmain := c2_fifo_single_flight exampleQueueState hr
  exact ⟨hmain.1, hmain.2.1⟩

end EasyTouch
